import Mathlib

/-!
Verification of the riscv-xdevs repository: DEVS atomic models (Generator,
Processor, Transducer) and the real-time pacing adapters of the examples.

Embedding choices:
* f64 time values are modelled as rationals extended with a point at
  infinity (the code assigns f64::INFINITY to sigma); the concrete times
  appearing in the code (periods, processing times, elapsed times) are
  exactly representable, and no claim depends on floating-point rounding.
* The float-to-integer conversion `t as u64` truncates toward zero and
  clamps negatives to 0; for a rational t this is Int.toNat of the floor.
* u64 counters (CLINT mtime, ticks, microseconds) are modelled as Nat.
  The mtime register is reset to 0 at the start of every run and the
  simulations last seconds, so all u64 arithmetic in the adapters stays
  far below 2 ^ 64; where the source subtracts u64 values we prove the
  subtraction does not underflow, so Nat subtraction agrees with it.
* Port bags are Lists; the slices returned by get_values are the lists.
* Each busy-wait loop is modelled with explicit fuel; the successive
  reads of the free-running mtime counter form a function from read
  index to counter value.
-/

namespace RiscvXdevs

/-- An f64 time value of the simulation: a finite rational or plus
infinity (the code stores f64::INFINITY in sigma to quiesce a model). -/
inductive Time where
  | fin : ℚ → Time
  | inf : Time
deriving DecidableEq

namespace Time

/-- Subtraction of a finite elapsed time, as in sigma -= e
(f64: infinity minus a finite value is infinity). -/
def subE : Time → ℚ → Time
  | fin a, e => fin (a - e)
  | inf, _ => inf

/-- Addition of a finite elapsed time, as in clock += e. -/
def addE : Time → ℚ → Time
  | fin a, e => fin (a + e)
  | inf, _ => inf

/-- Addition of two time values, as in clock += sigma
(f64: adding infinity on either side gives infinity). -/
def add : Time → Time → Time
  | fin a, fin b => fin (a + b)
  | fin _, inf => inf
  | inf, _ => inf

/-- Division of a finite f64 value by a time value, as in n_proc / clock
(f64: a finite value divided by infinity is 0). Division by the finite
value 0 follows the rational convention and yields 0; the code never
reaches that case with a positive numerator. -/
def divQ (q : ℚ) : Time → ℚ
  | fin a => q / a
  | inf => 0

end Time

/-- The conversion secf64_to_ticku64 from src/src/lib.rs, line 30:
the expression t as u64 * CLINT::freq() as u64. The cast t as u64
truncates the seconds value toward zero BEFORE scaling by the
ticks-per-second constant freq, so the fractional part of t is lost.
The same inline expression appears in examples/simple_poll.rs,
examples/simple_exti.rs and examples/annsim24.rs. -/
def secf64_to_ticku64 (freq : ℕ) (t : ℚ) : ℕ :=
  ⌊t⌋.toNat * freq

/-- The inverse conversion ticku64_to_secf64 from src/src/lib.rs,
line 35: t as f64 / CLINT::freq() as f64. Unlike the forward
conversion it divides without any truncation. -/
def ticku64_to_secf64 (freq : ℕ) (t : ℕ) : ℚ :=
  (t : ℚ) / (freq : ℚ)

/-- State of the Generator atomic model (src/src/lib.rs, generator). -/
structure GeneratorState where
  sigma : Time
  period : ℚ
  count : ℕ
deriving DecidableEq

/-- GeneratorState::new: sigma 0, the given period, count 0. -/
def GeneratorState.new (period : ℚ) : GeneratorState :=
  { sigma := Time.fin 0, period := period, count := 0 }

namespace Generator

/-- Generator delta_int: increment the job counter and reset sigma to
the period. -/
def delta_int (s : GeneratorState) : GeneratorState :=
  { s with count := s.count + 1, sigma := Time.fin s.period }

/-- Generator lambda: emit the current counter value on out_job. -/
def lambda (s : GeneratorState) : List ℕ :=
  [s.count]

/-- Generator ta: the sigma field. -/
def ta (s : GeneratorState) : Time :=
  s.sigma

/-- Generator delta_ext: subtract the elapsed time from sigma; if the
last value of the in_stop bag is true, set sigma to infinity. -/
def delta_ext (s : GeneratorState) (e : ℚ) (in_stop : List Bool) : GeneratorState :=
  let s1 := { s with sigma := s.sigma.subE e }
  match in_stop.getLast? with
  | some stop => if stop then { s1 with sigma := Time.inf } else s1
  | none => s1

end Generator

/-- State of the Processor atomic model (src/src/lib.rs, processor).
The red LED pin handle is modelled by its output level. -/
structure ProcessorState where
  sigma : Time
  time : ℚ
  job : Option ℕ
  redled : Bool
deriving DecidableEq

/-- ProcessorState::new: sigma 0, the given processing time, no job. -/
def ProcessorState.new (time : ℚ) (redled : Bool) : ProcessorState :=
  { sigma := Time.fin 0, time := time, job := none, redled := redled }

namespace Processor

/-- Processor stop hook: force the red LED low. -/
def stop (s : ProcessorState) : ProcessorState :=
  { s with redled := false }

/-- Processor delta_int: quiesce; if a job was held, release it and turn
the red LED off. -/
def delta_int (s : ProcessorState) : ProcessorState :=
  let s1 := { s with sigma := Time.inf }
  match s1.job with
  | some _ => { s1 with job := none, redled := false }
  | none => s1

/-- Processor lambda: emit the held job on out_job, if any. -/
def lambda (s : ProcessorState) : List ℕ :=
  match s.job with
  | some j => [j]
  | none => []

/-- Processor ta: the sigma field. -/
def ta (s : ProcessorState) : Time :=
  s.sigma

/-- Processor delta_ext: subtract the elapsed time from sigma; if the
in_job bag ends in a job and the processor is idle, accept that job,
set sigma to the processing time and light the red LED; if it is busy,
only a busy diagnostic is printed and nothing else changes. -/
def delta_ext (s : ProcessorState) (e : ℚ) (in_job : List ℕ) : ProcessorState :=
  let s1 := { s with sigma := s.sigma.subE e }
  match in_job.getLast? with
  | some job =>
    if s1.job.isNone then
      { s1 with job := some job, sigma := Time.fin s1.time, redled := true }
    else
      s1
  | none => s1

end Processor

/-- State of the Transducer atomic model (src/src/lib.rs, transducer). -/
structure TransducerState where
  sigma : Time
  clock : Time
  n_gen : ℕ
  n_proc : ℕ
deriving DecidableEq

/-- TransducerState::new: sigma is the observation time, clock 0,
both counters 0. -/
def TransducerState.new (obs_time : ℚ) : TransducerState :=
  { sigma := Time.fin obs_time, clock := Time.fin 0, n_gen := 0, n_proc := 0 }

namespace Transducer

/-- Transducer delta_int: accumulate sigma into the clock, compute the
(acceptance, throughput) pair that the source prints (n_proc over n_gen
and n_proc over the updated clock when n_proc is positive, both 0
otherwise), and quiesce permanently. Returns the new state together
with the reported pair. -/
def delta_int (s : TransducerState) : TransducerState × ℚ × ℚ :=
  let clock := s.clock.add s.sigma
  let report :=
    if 0 < s.n_proc then
      ((s.n_proc : ℚ) / (s.n_gen : ℚ), Time.divQ (s.n_proc : ℚ) clock)
    else
      (0, 0)
  ({ s with clock := clock, sigma := Time.inf }, report)

/-- Transducer lambda: emit a stop signal on out_stop. -/
def lambda (_s : TransducerState) : List Bool :=
  [true]

/-- Transducer ta: the sigma field. -/
def ta (s : TransducerState) : Time :=
  s.sigma

/-- Transducer delta_ext: subtract the elapsed time from sigma, add it
to the clock, and accumulate the sizes of the in_gen and in_proc bags. -/
def delta_ext (s : TransducerState) (e : ℚ) (in_gen in_proc : List ℕ) : TransducerState :=
  { s with
    sigma := s.sigma.subE e
    clock := s.clock.addE e
    n_gen := s.n_gen + in_gen.length
    n_proc := s.n_proc + in_proc.length }

end Transducer

/-- Trajectory of a stand-alone Generator that never receives any input:
the state after n internal transitions (delta_int applications). -/
def genState (P : ℚ) : ℕ → GeneratorState
  | 0 => GeneratorState.new P
  | n + 1 => Generator.delta_int (genState P n)

/-- Virtual time of the n-th internal event of that Generator: the
cumulative sum of the time advances returned by ta along the way. -/
def genEventTime (P : ℚ) : ℕ → Time
  | 0 => Generator.ta (genState P 0)
  | n + 1 => (genEventTime P n).add (Generator.ta (genState P (n + 1)))

/-- The busy loop while mtime.read() lt next_tick of the wait closures
(examples/simple_poll.rs line 24, examples/poll.rs line 27,
examples/sleep.rs line 36). mtime gives the value of the i-th read of
the free-running counter; fuel bounds the number of iterations so the
definition is total; the result is the index of the read on which the
loop exits, or none when the fuel runs out. In examples/sleep.rs each
iteration additionally programs mtimecmp and halts with wfi, which
affects neither the counter nor the exit condition, so the same loop
models it. -/
def pollLoop (mtime : ℕ → ℕ) (next_tick : ℕ) : ℕ → ℕ → Option ℕ
  | 0, _ => none
  | fuel + 1, i =>
    if mtime i < next_tick then pollLoop mtime next_tick fuel (i + 1) else some i

/-- The wait_poll closure of examples/simple_poll.rs, lines 21 to 30:
busy-wait until the counter reaches t_next as u64 * CLINT::freq(), then
read the counter once more and report the jitter
(read - next_tick) * 1000000 / freq in microseconds. Returns the index
of the exiting read together with the printed jitter (none when the
fuel runs out, which on hardware cannot happen since the counter is
free-running and unbounded). -/
def wait_poll (freq : ℕ) (mtime : ℕ → ℕ) (fuel : ℕ) (t_next : ℚ) : Option (ℕ × ℕ) :=
  let next_tick := secf64_to_ticku64 freq t_next
  match pollLoop mtime next_tick fuel 0 with
  | some k => some (k, (mtime (k + 1) - next_tick) * 1000000 / freq)
  | none => none

/-- The wait_poll closure of examples/poll.rs, lines 24 to 38: the
target is secf64_to_ticku64 of (t_next - t_start) * t_scale; when a
maximum jitter bound is configured and the reported jitter exceeds it,
the closure panics (modelled by Except.error), otherwise it returns
t_next. -/
def wait_poll_checked (freq : ℕ) (mtime : ℕ → ℕ) (fuel : ℕ)
    (t_start t_scale : ℚ) (max_jitter_us : Option ℕ) (t_next : ℚ) :
    Option (Except Unit ℚ) :=
  let next_tick := secf64_to_ticku64 freq ((t_next - t_start) * t_scale)
  match pollLoop mtime next_tick fuel 0 with
  | some k =>
    match max_jitter_us with
    | some max_jitter =>
      let jitter := (mtime (k + 1) - next_tick) * 1000000 / freq
      if max_jitter < jitter then some (Except.error ()) else some (Except.ok t_next)
    | none => some (Except.ok t_next)
  | none => none

/-- The wait_sleep closure of examples/sleep.rs, lines 33 to 54: the
loop programs mtimecmp and halts with wfi each iteration but its exit
condition and the jitter check are the same as in examples/poll.rs, so
the observable result coincides with wait_poll_checked; the panic on an
exceeded jitter bound is again Except.error. -/
def wait_sleep (freq : ℕ) (mtime : ℕ → ℕ) (fuel : ℕ)
    (t_start t_scale : ℚ) (max_jitter_us : Option ℕ) (t_next : ℚ) :
    Option (Except Unit ℚ) :=
  let next_tick := secf64_to_ticku64 freq ((t_next - t_start) * t_scale)
  match pollLoop mtime next_tick fuel 0 with
  | some k =>
    match max_jitter_us with
    | some max_jitter =>
      let jitter := (mtime (k + 1) - next_tick) * 1000000 / freq
      if max_jitter < jitter then some (Except.error ()) else some (Except.ok t_next)
    | none => some (Except.ok t_next)
  | none => none

/-- Modelled from the spec: the port bag of the external xdevs crate
(not under src). A port declares a maximum bag capacity at
model-definition time and holds an ordered sequence of values;
add_value appends the value when the bag is below capacity and
signals a capacity-exceeded condition to the inserter otherwise,
leaving the bag unchanged (spec sections 3 and 4.5). -/
structure PortBag (α : Type) where
  cap : ℕ
  values : List α
deriving DecidableEq

/-- Modelled from the spec: insertion into a port bag; an error is the
capacity-exceeded signal returned to the inserter. -/
def PortBag.add_value {α : Type} (b : PortBag α) (v : α) : Except Unit (PortBag α) :=
  if b.values.length < b.cap then Except.ok { b with values := b.values ++ [v] }
  else Except.error ()

/-- Observable result of one call of the input_handler closure of
examples/simple_exti.rs: the flag value it leaves behind, the running
count, the input bag, the boolean it returns, and whether the
buffer-full diagnostic was printed. -/
structure InputHandlerResult where
  pressed : Bool
  count : ℕ
  input : PortBag ℕ
  ret : Bool
  logged_full : Bool
deriving DecidableEq

/-- The input_handler closure of examples/simple_exti.rs, lines 41 to
56: consume the BUTTON_PRESSED flag by compare-exchange; on success try
to add the running count to the in_job bag, printing the buffer-full
diagnostic when add_value fails (the value is dropped, the bag is left
as it was), increment the count and return true; when the flag was not
set, return false and change nothing. -/
def input_handler (pressed : Bool) (count : ℕ) (input : PortBag ℕ) : InputHandlerResult :=
  if pressed then
    match input.add_value count with
    | Except.ok input1 => ⟨false, count + 1, input1, true, false⟩
    | Except.error _ => ⟨false, count + 1, input, true, true⟩
  else
    ⟨pressed, count, input, false, false⟩

/-- Operations on the shared atomic PRESSED flag of
examples/annsim24.rs (and BUTTON_PRESSED of examples/simple_exti.rs):
assert is the GPIO9 handler storing true with Release ordering;
consume is the main loop's compare_exchange of true for false with
Acquire ordering. All operations act on the one atomic variable on a
single core, so they take effect in one total order; a trace is the
list of operations in that order. -/
inductive FlagOp where
  | assert : FlagOp
  | consume : FlagOp
deriving DecidableEq

/-- One flag operation applied to the pair (current flag value, number
of successful consumes so far). A consume succeeds exactly when the
flag is true, and then clears it. -/
def flagStep : Bool × ℕ → FlagOp → Bool × ℕ
  | (_, n), FlagOp.assert => (true, n)
  | (f, n), FlagOp.consume => if f then (false, n + 1) else (f, n)

/-- Run a trace of flag operations from an initial flag value, counting
the successful consumes (the events the main loop observes). -/
def runFlag (init : Bool) (ops : List FlagOp) : Bool × ℕ :=
  ops.foldl flagStep (init, 0)

theorem Time.subE_zero (t : Time) : t.subE 0 = t := by
  cases t <;> simp [Time.subE]

theorem Time.addE_zero (t : Time) : t.addE 0 = t := by
  cases t <;> simp [Time.addE]

/-- If the busy loop started at read index i exits at read index k, then
k is at or after i, the read at k reached the target, and every read
from i up to (excluding) k was below the target. -/
theorem pollLoop_spec (mtime : ℕ → ℕ) (T : ℕ) :
    ∀ fuel i k, pollLoop mtime T fuel i = some k →
      i ≤ k ∧ T ≤ mtime k ∧ ∀ j, i ≤ j → j < k → mtime j < T := by
  intro fuel
  induction fuel with
  | zero =>
    intro i k h
    simp [pollLoop] at h
  | succ n ih =>
    intro i k h
    rw [pollLoop] at h
    by_cases hc : mtime i < T
    · rw [if_pos hc] at h
      obtain ⟨h1, h2, h3⟩ := ih (i + 1) k h
      refine ⟨Nat.le_trans (Nat.le_succ i) h1, h2, ?_⟩
      intro j hij hjk
      rcases Nat.eq_or_lt_of_le hij with heq | hlt
      · exact heq ▸ hc
      · exact h3 j hlt hjk
    · rw [if_neg hc] at h
      injection h with h
      subst h
      exact ⟨Nat.le_refl i, Nat.le_of_not_lt hc,
        fun j hij hjk => (Nat.lt_irrefl i (Nat.lt_of_le_of_lt hij hjk)).elim⟩

/-- C1. The claim states that secf64_to_ticku64 (and the identical
inline expressions) maps every non-negative time t in seconds to the
target tick t * F. The code computes (t as u64) * F, truncating the
SECONDS value before scaling, so every fractional second is lost: at
t = 1.1 s with the E310x CLINT frequency F = 32768 ticks per second the
code yields 32768 ticks although t * F = 36044.8. The shipped examples
schedule events at such fractional times (processing times 1.1 s and
2.1 s), so their waits target a tick up to one second early, violating
the never-return-early pacing contract of the spec; the inverse
conversion ticku64_to_secf64 divides without truncation, confirming the
truncation is a slip. -/
theorem c1_secf64_truncates_fractional_seconds :
    secf64_to_ticku64 32768 (11 / 10) = 32768 ∧
    ((secf64_to_ticku64 32768 (11 / 10) : ℚ) ≠ (11 / 10) * 32768) ∧
    ticku64_to_secf64 32768 (secf64_to_ticku64 32768 (11 / 10)) ≠ (11 / 10 : ℚ) := by
  have h : secf64_to_ticku64 32768 (11 / 10) = 32768 := by
    norm_num [secf64_to_ticku64]
  refine ⟨h, ?_, ?_⟩
  · rw [h]
    norm_num
  · rw [h]
    norm_num [ticku64_to_secf64]

/-- C2. The busy-poll wait of examples/simple_poll.rs never returns
before the free-running counter has reached the computed target tick:
the read on which the loop exits is at or above the target, every
earlier read was below it, and the reported jitter is the
microsecond conversion of (observed read minus target tick), whose u64
subtraction cannot underflow because the observed read is at or above
the target (so the jitter is non-negative). -/
theorem c2_wait_poll_no_early_return (freq : ℕ) (mtime : ℕ → ℕ) (fuel k : ℕ) (t_next : ℚ)
    (hmono : Monotone mtime)
    (hk : pollLoop mtime (secf64_to_ticku64 freq t_next) fuel 0 = some k) :
    secf64_to_ticku64 freq t_next ≤ mtime k ∧
    (∀ j, j < k → mtime j < secf64_to_ticku64 freq t_next) ∧
    secf64_to_ticku64 freq t_next ≤ mtime (k + 1) ∧
    wait_poll freq mtime fuel t_next =
      some (k, (mtime (k + 1) - secf64_to_ticku64 freq t_next) * 1000000 / freq) := by
  obtain ⟨-, h2, h3⟩ := pollLoop_spec mtime _ fuel 0 k hk
  refine ⟨h2, fun j hj => h3 j (Nat.zero_le j) hj,
    Nat.le_trans h2 (hmono (Nat.le_succ k)), ?_⟩
  simp only [wait_poll, hk]

/-- Witness for C2 at freq 1, counter reading i on its i-th read,
target time 3 s: the loop exits on read 3 and the reported jitter is
one full second, 1000000 microseconds. -/
theorem c2_wait_poll_witness :
    secf64_to_ticku64 1 3 ≤ 3 ∧
    secf64_to_ticku64 1 3 ≤ 4 ∧
    wait_poll 1 (fun n => n) 10 3 = some (3, 1000000) := by
  have hT : secf64_to_ticku64 1 3 = 3 := by
    norm_num [secf64_to_ticku64]
    rfl
  have hk : pollLoop (fun n => n) (secf64_to_ticku64 1 3) 10 0 = some 3 := by
    rw [hT]
    decide
  have h := c2_wait_poll_no_early_return 1 (fun n => n) 10 3 3 (fun _ _ hab => hab) hk
  refine ⟨h.1, h.2.2.1, ?_⟩
  rw [h.2.2.2, hT]
  norm_num

/-- C3 counterexample. A busy Processor (holding job 7, sigma 5)
receiving job 9 with elapsed time 1 does NOT keep its state and sigma
unchanged: delta_ext subtracts the elapsed time, so sigma drops to 4. -/
theorem c3_busy_state_changes :
    Processor.delta_ext ⟨Time.fin 5, 2, some 7, true⟩ 1 [9] ≠
      (⟨Time.fin 5, 2, some 7, true⟩ : ProcessorState) := by
  intro h
  have hs := congrArg ProcessorState.sigma h
  simp [Processor.delta_ext, Time.subE] at hs

/-- C3 amended. On a busy Processor, delta_ext subtracts the elapsed
time e from sigma and leaves everything else unchanged: the held job,
the processing time and the LED keep their values, so the arriving job
is dropped (the code only prints a busy diagnostic for it). -/
theorem c3_busy_drops_arriving_job (s : ProcessorState) (e : ℚ) (xs : List ℕ) (j : ℕ)
    (hbusy : s.job = some j) :
    Processor.delta_ext s e xs = { s with sigma := s.sigma.subE e } := by
  unfold Processor.delta_ext
  cases hlast : xs.getLast? with
  | none => rfl
  | some job => simp [hbusy]

/-- Witness for C3 amended at the counterexample state: the result is
the same state with sigma lowered from 5 to 4. -/
theorem c3_busy_drops_witness :
    Processor.delta_ext ⟨Time.fin 5, 2, some 7, true⟩ 1 [9] =
      { (⟨Time.fin 5, 2, some 7, true⟩ : ProcessorState) with sigma := (Time.fin 5).subE 1 } :=
  c3_busy_drops_arriving_job ⟨Time.fin 5, 2, some 7, true⟩ 1 [9] 7 rfl

theorem genState_period (P : ℚ) : ∀ n, (genState P n).period = P := by
  intro n
  induction n with
  | zero => rfl
  | succ n ih => simp [genState, Generator.delta_int, ih]

theorem genState_count (P : ℚ) : ∀ n, (genState P n).count = n := by
  intro n
  induction n with
  | zero => rfl
  | succ n ih => simp [genState, Generator.delta_int, ih]

theorem genState_sigma_succ (P : ℚ) (n : ℕ) :
    (genState P (n + 1)).sigma = Time.fin P := by
  show (Generator.delta_int (genState P n)).sigma = Time.fin P
  simp [Generator.delta_int, genState_period]

theorem genEventTime_eq (P : ℚ) : ∀ n, genEventTime P n = Time.fin (n * P) := by
  intro n
  induction n with
  | zero =>
    simp [genEventTime, genState, GeneratorState.new, Generator.ta]
  | succ n ih =>
    show (genEventTime P n).add (Generator.ta (genState P (n + 1))) = _
    rw [ih, Generator.ta, genState_sigma_succ]
    simp only [Time.add]
    push_cast
    ring_nf

/-- C4. A stand-alone Generator with period P that never receives any
input emits job id n exactly at virtual time n times P for every n at
least 1: its n-th internal event happens at cumulative time n * P and
lambda emits the then-current counter value n. -/
theorem c4_generator_emits_n_at_nP (P : ℚ) (n : ℕ) (_hP : 0 < P) (_hn : 1 ≤ n) :
    Generator.lambda (genState P n) = [n] ∧ genEventTime P n = Time.fin (n * P) := by
  constructor
  · rw [Generator.lambda, genState_count]
  · exact genEventTime_eq P n

/-- Witness for C4 with period 2 at n 3: job 3 is emitted at virtual
time 6. -/
theorem c4_generator_witness :
    Generator.lambda (genState 2 3) = [3] ∧ genEventTime 2 3 = Time.fin 6 := by
  have h := c4_generator_emits_n_at_nP 2 3 (by norm_num) (by norm_num)
  refine ⟨h.1, ?_⟩
  rw [h.2]
  norm_num

/-- C5. Every delta_ext of the three atomic models subtracts the
elapsed time e from sigma before applying any effect of the input: the
transition equals its own zero-elapsed form run from the state whose
sigma was already lowered by e (for the Transducer the elapsed
bookkeeping also adds e to the clock, which is likewise independent of
the input). -/
theorem c5_delta_ext_subtracts_elapsed_first :
    (∀ (s : GeneratorState) (e : ℚ) (xs : List Bool),
      Generator.delta_ext s e xs =
        Generator.delta_ext { s with sigma := s.sigma.subE e } 0 xs) ∧
    (∀ (s : ProcessorState) (e : ℚ) (xs : List ℕ),
      Processor.delta_ext s e xs =
        Processor.delta_ext { s with sigma := s.sigma.subE e } 0 xs) ∧
    (∀ (s : TransducerState) (e : ℚ) (xg xp : List ℕ),
      Transducer.delta_ext s e xg xp =
        Transducer.delta_ext { s with sigma := s.sigma.subE e, clock := s.clock.addE e } 0 xg xp) := by
  refine ⟨?_, ?_, ?_⟩
  · intro s e xs
    unfold Generator.delta_ext
    cases xs.getLast? with
    | none => simp [Time.subE_zero]
    | some stop => cases stop <;> simp [Time.subE_zero]
  · intro s e xs
    unfold Processor.delta_ext
    cases xs.getLast? with
    | none => simp [Time.subE_zero]
    | some job => cases hjob : s.job <;> simp [hjob, Time.subE_zero]
  · intro s e xg xp
    simp [Transducer.delta_ext, Time.subE_zero, Time.addE_zero]

/-- C6. At a window boundary the Transducer first accumulates sigma
into its clock; when n_proc is positive the reported acceptance is
n_proc over n_gen and the reported throughput is n_proc over the
accumulated clock, both are 0 when n_proc is 0, and sigma is set to
infinity so the Transducer never schedules another internal event. -/
theorem c6_transducer_window_report (s : TransducerState) (c : ℚ)
    (hclock : s.clock.add s.sigma = Time.fin c) :
    (Transducer.delta_int s).1.sigma = Time.inf ∧
    (Transducer.delta_int s).1.clock = Time.fin c ∧
    (s.n_proc = 0 → (Transducer.delta_int s).2 = (0, 0)) ∧
    (0 < s.n_proc →
      (Transducer.delta_int s).2.1 = (s.n_proc : ℚ) / (s.n_gen : ℚ) ∧
      (Transducer.delta_int s).2.2 = (s.n_proc : ℚ) / c) := by
  unfold Transducer.delta_int
  refine ⟨rfl, by simp [hclock], ?_, ?_⟩
  · intro h0
    simp [h0]
  · intro hpos
    simp [hpos, hclock, Time.divQ]

/-- Witness for C6: a Transducer at its window boundary with sigma 4,
clock 6, 10 generated and 5 processed reports acceptance one half and
throughput one half (5 jobs over the accumulated 10 time units) and
quiesces. -/
theorem c6_transducer_window_witness :
    (Transducer.delta_int ⟨Time.fin 4, Time.fin 6, 10, 5⟩).1.sigma = Time.inf ∧
    (Transducer.delta_int ⟨Time.fin 4, Time.fin 6, 10, 5⟩).1.clock = Time.fin 10 ∧
    (Transducer.delta_int ⟨Time.fin 4, Time.fin 6, 10, 5⟩).2.1 = (1 / 2 : ℚ) ∧
    (Transducer.delta_int ⟨Time.fin 4, Time.fin 6, 10, 5⟩).2.2 = (1 / 2 : ℚ) := by
  have hclock : ((⟨Time.fin 4, Time.fin 6, 10, 5⟩ : TransducerState).clock).add
      (⟨Time.fin 4, Time.fin 6, 10, 5⟩ : TransducerState).sigma = Time.fin 10 := by
    show (Time.fin 6).add (Time.fin 4) = Time.fin 10
    simp only [Time.add]
    norm_num
  have h := c6_transducer_window_report ⟨Time.fin 4, Time.fin 6, 10, 5⟩ 10 hclock
  obtain ⟨h1, h2, -, h4⟩ := h
  obtain ⟨h5, h6⟩ := h4 (by norm_num)
  refine ⟨h1, h2, ?_, ?_⟩
  · rw [h5]
    norm_num
  · rw [h6]
    norm_num

/-- C7. Inserting into a port bag that is already at its declared
maximum capacity signals the capacity-exceeded condition to the
inserter (add_value returns an error) and is non-fatal: the bag keeps
its prior contents, and the observed caller policy (the input_handler
closure of examples/simple_exti.rs) prints the buffer-full diagnostic,
drops the new value, and carries on, still reporting the consumed
event. -/
theorem c7_capacity_exceeded_nonfatal (b : PortBag ℕ) (v count : ℕ)
    (hfull : b.cap ≤ b.values.length) :
    b.add_value v = Except.error () ∧
    input_handler true count b = ⟨false, count + 1, b, true, true⟩ := by
  have h : ¬ b.values.length < b.cap := Nat.not_lt.mpr hfull
  constructor
  · simp [PortBag.add_value, h]
  · simp [input_handler, PortBag.add_value, h]

/-- Witness for C7: a capacity-1 bag already holding one value rejects
the insertion and the handler logs, drops and continues. -/
theorem c7_capacity_witness :
    PortBag.add_value ⟨1, [5]⟩ 9 = Except.error () ∧
    input_handler true 3 ⟨1, [5]⟩ = ⟨false, 4, ⟨1, [5]⟩, true, true⟩ :=
  c7_capacity_exceeded_nonfatal ⟨1, [5]⟩ 9 3 (by decide)

/-- C8. When a maximum jitter bound is configured and the reported
jitter exceeds it, both pacing adapters that take the bound
(wait_poll of examples/poll.rs and wait_sleep of examples/sleep.rs)
panic instead of returning, terminating the process. -/
theorem c8_jitter_bound_exceeded_fatal (freq : ℕ) (mtime : ℕ → ℕ) (fuel k : ℕ)
    (t_start t_scale t_next : ℚ) (max_jitter : ℕ)
    (hk : pollLoop mtime (secf64_to_ticku64 freq ((t_next - t_start) * t_scale)) fuel 0 = some k)
    (hj : max_jitter <
      (mtime (k + 1) - secf64_to_ticku64 freq ((t_next - t_start) * t_scale)) * 1000000 / freq) :
    wait_poll_checked freq mtime fuel t_start t_scale (some max_jitter) t_next =
      some (Except.error ()) ∧
    wait_sleep freq mtime fuel t_start t_scale (some max_jitter) t_next =
      some (Except.error ()) := by
  constructor
  · simp only [wait_poll_checked, hk]
    rw [if_pos hj]
  · simp only [wait_sleep, hk]
    rw [if_pos hj]

/-- Witness for C8: a counter that jumps by 100 ticks per read at
freq 1 overshoots the target tick 2 by 198 seconds, far beyond the
5000 microsecond bound, and both adapters panic. -/
theorem c8_jitter_bound_witness :
    wait_poll_checked 1 (fun n => n * 100) 5 0 1 (some 5000) 2 = some (Except.error ()) ∧
    wait_sleep 1 (fun n => n * 100) 5 0 1 (some 5000) 2 = some (Except.error ()) := by
  have hT : secf64_to_ticku64 1 ((2 - 0) * 1) = 2 := by
    norm_num [secf64_to_ticku64]
    rfl
  have hk : pollLoop (fun n => n * 100) (secf64_to_ticku64 1 ((2 - 0) * 1)) 5 0 = some 1 := by
    rw [hT]
    decide
  refine c8_jitter_bound_exceeded_fatal 1 (fun n => n * 100) 5 1 0 1 2 5000 hk ?_
  rw [hT]
  decide

theorem foldl_flagStep_false : ∀ (ops : List FlagOp), FlagOp.assert ∉ ops →
    ∀ n, ops.foldl flagStep (false, n) = (false, n) := by
  intro ops
  induction ops with
  | nil =>
    intro _ n
    rfl
  | cons a rest ih =>
    intro h n
    cases a with
    | assert => exact absurd (List.mem_cons_self _ _) h
    | consume =>
      show rest.foldl flagStep (flagStep (false, n) FlagOp.consume) = (false, n)
      have hstep : flagStep (false, n) FlagOp.consume = (false, n) := rfl
      rw [hstep]
      exact ih (fun hm => h (List.mem_cons_of_mem _ hm)) n

theorem foldl_flagStep_true (ops : List FlagOp) (h : FlagOp.assert ∉ ops) (n : ℕ) :
    (ops = [] ∧ ops.foldl flagStep (true, n) = (true, n)) ∨
    (FlagOp.consume ∈ ops ∧ ops.foldl flagStep (true, n) = (false, n + 1)) := by
  cases ops with
  | nil => exact Or.inl ⟨rfl, rfl⟩
  | cons a rest =>
    cases a with
    | assert => exact absurd (List.mem_cons_self _ _) h
    | consume =>
      refine Or.inr ⟨List.mem_cons_self _ _, ?_⟩
      show rest.foldl flagStep (flagStep (true, n) FlagOp.consume) = (false, n + 1)
      have hstep : flagStep (true, n) FlagOp.consume = (false, n + 1) := rfl
      rw [hstep]
      exact foldl_flagStep_false rest (fun hm => h (List.mem_cons_of_mem _ hm)) (n + 1)

/-- C9. In any total order of the operations on the shared atomic flag
holding exactly one assertion by the interrupt handler (the trace
l1 ++ assert :: l2 with no other assert), the main loop's test-and-clear
observes the event at most once, and exactly once whenever some
consuming check occurs after the assertion: never duplicated, never
lost. -/
theorem c9_exogenous_event_exactly_once (l1 l2 : List FlagOp)
    (h1 : FlagOp.assert ∉ l1) (h2 : FlagOp.assert ∉ l2) :
    (runFlag false (l1 ++ FlagOp.assert :: l2)).2 ≤ 1 ∧
    (FlagOp.consume ∈ l2 → (runFlag false (l1 ++ FlagOp.assert :: l2)).2 = 1) := by
  have hrun : runFlag false (l1 ++ FlagOp.assert :: l2) = l2.foldl flagStep (true, 0) := by
    unfold runFlag
    rw [List.foldl_append, foldl_flagStep_false l1 h1 0]
    rfl
  rcases foldl_flagStep_true l2 h2 0 with ⟨hnil, heq⟩ | ⟨hmem, heq⟩
  · rw [hrun, heq]
    exact ⟨Nat.zero_le 1, fun hc => absurd (hnil ▸ hc) (List.not_mem_nil _)⟩
  · rw [hrun, heq]
    exact ⟨Nat.le_refl 1, fun _ => rfl⟩

/-- Witness for C9: in the trace consume, assert, consume, consume the
event is observed exactly once even though two checks follow it. -/
theorem c9_exactly_once_witness :
    (runFlag false ([FlagOp.consume] ++ FlagOp.assert :: [FlagOp.consume, FlagOp.consume])).2 ≤ 1 ∧
    (runFlag false ([FlagOp.consume] ++ FlagOp.assert :: [FlagOp.consume, FlagOp.consume])).2 = 1 := by
  have h := c9_exogenous_event_exactly_once [FlagOp.consume] [FlagOp.consume, FlagOp.consume]
    (by decide) (by decide)
  exact ⟨h.1, h.2 (by decide)⟩

/-- C10. Generator delta_ext and Processor delta_ext inspect only the
last value of their input bag: the transition on any bag equals the
transition on the singleton bag holding its last value; consequently a
Generator whose in_stop bag ends in false does not stop no matter what
came before, and an idle Processor offered several jobs in one bag
accepts exactly the last one. -/
theorem c10_delta_ext_last_value_only :
    (∀ (s : GeneratorState) (e : ℚ) (xs : List Bool) (v : Bool),
      xs.getLast? = some v → Generator.delta_ext s e xs = Generator.delta_ext s e [v]) ∧
    (∀ (s : GeneratorState) (e : ℚ) (xs : List Bool),
      xs.getLast? = some false → (Generator.delta_ext s e xs).sigma = s.sigma.subE e) ∧
    (∀ (s : ProcessorState) (e : ℚ) (xs : List ℕ) (v : ℕ),
      xs.getLast? = some v → Processor.delta_ext s e xs = Processor.delta_ext s e [v]) ∧
    (∀ (s : ProcessorState) (e : ℚ) (xs : List ℕ) (v : ℕ),
      s.job = none → xs.getLast? = some v → (Processor.delta_ext s e xs).job = some v) := by
  refine ⟨?_, ?_, ?_, ?_⟩
  · intro s e xs v hlast
    unfold Generator.delta_ext
    rw [hlast]
    rfl
  · intro s e xs hlast
    unfold Generator.delta_ext
    rw [hlast]
    rfl
  · intro s e xs v hlast
    unfold Processor.delta_ext
    rw [hlast]
    rfl
  · intro s e xs v hj hlast
    unfold Processor.delta_ext
    rw [hlast]
    simp [hj]

/-- Witness for C10: the bag true then false does not stop the
Generator (same result as the bag holding only false), and an idle
Processor offered jobs 4, 5, 6 in one bag accepts job 6. -/
theorem c10_last_value_witness :
    Generator.delta_ext ⟨Time.fin 2, 1, 0⟩ 1 [true, false] =
      Generator.delta_ext ⟨Time.fin 2, 1, 0⟩ 1 [false] ∧
    (Processor.delta_ext ⟨Time.inf, 2, none, false⟩ 0 [4, 5, 6]).job = some 6 :=
  ⟨c10_delta_ext_last_value_only.1 ⟨Time.fin 2, 1, 0⟩ 1 [true, false] false rfl,
    c10_delta_ext_last_value_only.2.2.2 ⟨Time.inf, 2, none, false⟩ 0 [4, 5, 6] 6 rfl rfl⟩

end RiscvXdevs
